import Mathlib

/-!
Shallow embedding of the action-reconciliation core of the chat frontend
(`ChatInterface`): the turn dispatcher `handleSendMessage` and the
reconciliation poll `checkCalendarEventStatus`, together with the small
timer-driven loop the latter forms through its rescheduling `setTimeout`.
Machine-irrelevant UI concerns (rendering, focus, scrolling, timestamps)
are not modelled; the data model keeps exactly the fields those two
functions read or write.
-/

namespace Chat

/-- Details payload of an action, with the fields the reconciliation code
reads (`summary`) plus the fields the action taxonomy carries.  A missing
field is `none`, matching an absent property on the source object. -/
structure ActionDetails where
  summary : Option String
  location : Option String
  htmlLink : Option String
  errorMsg : Option String
deriving DecidableEq, Repr

/-- An action embedded in a turn: a `type` tag string and an optional
`details` object (`none` embeds a missing or null `details` property). -/
structure Action where
  type : String
  details : Option ActionDetails
deriving DecidableEq, Repr

/-- One turn of the local conversation log, as held in the `messages`
state: role, content, actions (an absent property is the empty list, which
the source guards treat identically) and the error flag set only by the
dispatcher's failure path. -/
structure Message where
  role : String
  content : String
  actions : List Action
  isError : Bool
deriving DecidableEq, Repr

/-- One entry of the authoritative history returned by the oracle endpoint
(`/api/chat/history/:id`); `actions` is the `msg.actions || []` view. -/
structure HistoryItem where
  message_type : String
  content : String
  actions : List Action
deriving DecidableEq, Repr

/-- The `summary` field reached through `details`, `none` when either the
`details` object or its `summary` property is missing. -/
def actionSummary (a : Action) : Option String :=
  a.details.bind ActionDetails.summary

/-- Predicate of the `findIndex` call locating a pending calendar action
inside a turn's action list. -/
def isPendingAction (a : Action) : Bool :=
  a.type == "calendar_event_pending"

/-- Predicate of the inner `find` call: a created calendar action whose
`details` object is present (as is the pending action's) and whose
`summary` equals the pending action's `summary`. -/
def createdMatches (pending a : Action) : Bool :=
  a.type == "calendar_event_created" && a.details.isSome && pending.details.isSome &&
    actionSummary a == actionSummary pending

/-- Scan of the fetched history, in returned order, for the first created
action matching the pending one: the `for (const historyItem of
updatedHistory)` loop with its `actions.length > 0` guard and inner
`find`. -/
def findCreatedMatch (pending : Action) : List HistoryItem → Option Action
  | [] => none
  | item :: rest =>
    if 0 < item.actions.length then
      match item.actions.find? (createdMatches pending) with
      | some created => some created
      | none => findCreatedMatch pending rest
    else
      findCreatedMatch pending rest

/-- In-place replacement of the first pending action of one turn's action
list by its matched created counterpart: the `findIndex` for the pending
entry followed by `message.actions[pendingEventIndex] = createdEvent`.
Returns the new action list and whether a replacement happened.  If the
first pending entry has no match in the history, no later pending entry of
the same turn is tried, exactly as in the source. -/
def replaceFirstPendingAction (hist : List HistoryItem) : List Action → List Action × Bool
  | [] => ([], false)
  | a :: rest =>
    if isPendingAction a then
      match findCreatedMatch a hist with
      | some created => (created :: rest, true)
      | none => (a :: rest, false)
    else
      (a :: (replaceFirstPendingAction hist rest).1, (replaceFirstPendingAction hist rest).2)

/-- Processing of one turn in the reconciliation scan: only assistant
turns with a nonempty action list are examined (`message.role ===
'assistant' && message.actions && message.actions.length > 0`). -/
def processMessage (hist : List HistoryItem) (m : Message) : Message × Bool :=
  if m.role = "assistant" ∧ m.actions ≠ [] then
    ({ m with actions := (replaceFirstPendingAction hist m.actions).1 },
      (replaceFirstPendingAction hist m.actions).2)
  else
    (m, false)

/-- The whole scan over `updatedMessages`.  The source iterates from the
most recent turn to the oldest, mutating each turn independently and
or-accumulating the `updated` flag; since turns do not interact, the
structural recursion below computes the same list and flag. -/
def reconcileMessages (hist : List HistoryItem) : List Message → List Message × Bool
  | [] => ([], false)
  | m :: rest =>
    ((processMessage hist m).1 :: (reconcileMessages hist rest).1,
      (processMessage hist m).2 || (reconcileMessages hist rest).2)

/-- Outcome of the poll's fetch of the authoritative history: the returned
list, or a transport/remote error caught by the surrounding `try`. -/
inductive PollOutcome where
  | ok (hist : List HistoryItem)
  | error
deriving DecidableEq, Repr

/-- Observable effect of one `checkCalendarEventStatus` invocation:
`newMessages` is the argument of the `setMessages` call when one is made,
and `reschedule` is the delay of the `setTimeout` rescheduling the next
poll when one is scheduled. -/
structure PollResult where
  newMessages : Option (List Message)
  reschedule : Option Nat
deriving DecidableEq, Repr

/-- One reconciliation poll (`checkCalendarEventStatus`): the early-return
guard on a missing token, missing session id or the `'new'` sentinel; on a
fetch error the catch block only logs, so nothing is written and nothing
is rescheduled; on success the scan runs, and either the updated log is
written (`setMessages`, no further poll) or another poll is scheduled
after 3000 ms. -/
def checkCalendarEventStatus : Option String → Option String → List Message → PollOutcome → PollResult
  | none, _, _, _ => { newMessages := none, reschedule := none }
  | some _, none, _, _ => { newMessages := none, reschedule := none }
  | some _, some sid, messages, outcome =>
    if sid = "new" then { newMessages := none, reschedule := none }
    else
      match outcome with
      | .error => { newMessages := none, reschedule := none }
      | .ok hist =>
        if (reconcileMessages hist messages).2 then
          { newMessages := some (reconcileMessages hist messages).1, reschedule := none }
        else
          { newMessages := none, reschedule := some 3000 }

/-- Role/content projection of a turn, used for the `message_history`
field of the submit payload. -/
structure RoleContent where
  role : String
  content : String
deriving DecidableEq, Repr

/-- The submit payload's `request` object: the prompt, the mapped history
snapshot, and the session id (`null` for the `'new'` sentinel). -/
structure ChatRequest where
  prompt : String
  message_history : List RoleContent
  session_id : Option String
deriving DecidableEq, Repr

/-- The submit endpoint's response body: reply text, actions, and the
(possibly null) session id assigned by the server. -/
structure ChatResponseData where
  response : String
  actions : List Action
  session_id : Option String
deriving DecidableEq, Repr

/-- Outcome of the dispatch POST: a response, or a transport/remote
failure caught by the `catch` block. -/
inductive SendOutcome where
  | success (data : ChatResponseData)
  | failure
deriving DecidableEq, Repr

/-- Observable effect of one `handleSendMessage` invocation: the resulting
local log, the request issued to the backend (if any), the reconciliation
poll scheduled by the trailing `setTimeout` (session id and delay, if
any), and whether the input box was cleared. -/
structure SendResult where
  messages : List Message
  request : Option ChatRequest
  scheduledCheck : Option (String × Nat)
  inputCleared : Bool
deriving DecidableEq, Repr

/-- Whitespace trimming of the prompt (`input.trim()`): leading and
trailing whitespace characters are removed. -/
def jsTrim (s : String) : String :=
  ⟨((s.data.dropWhile Char.isWhitespace).reverse.dropWhile Char.isWhitespace).reverse⟩

/-- The optimistic user turn appended before the request is sent. -/
def mkUserMessage (input : String) : Message :=
  { role := "user", content := input, actions := [], isError := false }

/-- The single synthetic error turn appended by the dispatcher's catch
block. -/
def errorReplyMessage : Message :=
  { role := "assistant",
    content := "Sorry, I encountered an error processing your request. Please try again.",
    actions := [], isError := true }

/-- The turn dispatcher (`handleSendMessage`): the guard rejecting a
blank-after-trim prompt or an in-flight dispatch; the optimistic append of
the user turn; the payload built from the pre-append `messages` snapshot;
then either the assistant turn appended and, when the response's actions
contain a created or pending calendar action, a reconciliation poll
scheduled after 3000 ms for `response.data.session_id || sessionId`, or on
failure the single error turn appended with no retry and nothing
scheduled. -/
def handleSendMessage (input : String) (isLoading : Bool) (messages : List Message)
    (sessionId : String) (outcome : SendOutcome) : SendResult :=
  if jsTrim input = "" ∨ isLoading = true then
    { messages := messages, request := none, scheduledCheck := none, inputCleared := false }
  else
    match outcome with
    | .success data =>
      { messages := messages ++ [mkUserMessage input,
          { role := "assistant", content := data.response, actions := data.actions,
            isError := false }],
        request := some
          { prompt := input,
            message_history := messages.map (fun m => { role := m.role, content := m.content }),
            session_id := if sessionId = "new" then none else some sessionId },
        scheduledCheck :=
          if data.actions.any (fun a =>
              a.type == "calendar_event_created" || a.type == "calendar_event_pending") then
            some (data.session_id.getD sessionId, 3000)
          else
            none,
        inputCleared := true }
    | .failure =>
      { messages := messages ++ [mkUserMessage input, errorReplyMessage],
        request := some
          { prompt := input,
            message_history := messages.map (fun m => { role := m.role, content := m.content }),
            session_id := if sessionId = "new" then none else some sessionId },
        scheduledCheck := none,
        inputCleared := true }

/-- State of the timer-driven polling loop for one session: the local log
and the delay of the next scheduled poll (`none` when no poll is
scheduled, i.e. the loop has stopped). -/
structure EngineState where
  messages : List Message
  scheduled : Option Nat
deriving DecidableEq, Repr

/-- One timer tick: if a poll is scheduled it fires, the `setMessages`
write (if any) replaces the log, and the next state's schedule is the
poll's rescheduling decision. -/
def engineTick (tok sid : Option String) (hist : List HistoryItem) (s : EngineState) : EngineState :=
  match s.scheduled with
  | none => s
  | some _ =>
    { messages := (checkCalendarEventStatus tok sid s.messages (.ok hist)).newMessages.getD s.messages,
      scheduled := (checkCalendarEventStatus tok sid s.messages (.ok hist)).reschedule }

/-- The polling loop run for `n` ticks against a fixed oracle history. -/
def engineRun (tok sid : Option String) (hist : List HistoryItem) : EngineState → Nat → EngineState
  | s, 0 => s
  | s, n + 1 => engineRun tok sid hist (engineTick tok sid hist s) n

/-- The conversation view after a stale scheduled poll fires: a
`setMessages` call made by the poll replaces whatever the view currently
shows, otherwise the view is untouched. -/
def viewAfterStalePoll (currentView : List Message) (r : PollResult) : List Message :=
  match r.newMessages with
  | some m => m
  | none => currentView

/-- Final log of the interleaving in which a user turn is appended (by
the dispatcher's functional append) while a reconciliation poll is in
flight: the poll captured `snapshot` before the append, and its
`setMessages(updatedMessages)` write, when made, replaces the whole state
with the reconciled snapshot. -/
def lostUpdateFinal (snapshot : List Message) (userTurn : Message) (hist : List HistoryItem) :
    List Message :=
  if (reconcileMessages hist snapshot).2 then (reconcileMessages hist snapshot).1
  else snapshot ++ [userTurn]

/-- A pending calendar action titled `sync`. -/
def pendingSync : Action :=
  { type := "calendar_event_pending",
    details := some { summary := some "sync", location := none, htmlLink := none,
                      errorMsg := none } }

/-- A failed calendar action titled `sync`: a terminal entry whose
identifying field equals `pendingSync`'s. -/
def failedSync : Action :=
  { type := "calendar_event_failed",
    details := some { summary := some "sync", location := none, htmlLink := none,
                      errorMsg := some "quota exceeded" } }

/-- A needs-authorization calendar action titled `sync`: another terminal
entry whose identifying field equals `pendingSync`'s. -/
def needsAuthSync : Action :=
  { type := "calendar_event_needs_auth",
    details := some { summary := some "sync", location := none, htmlLink := none,
                      errorMsg := none } }

/-- A local log holding one assistant turn with the pending `sync`
action. -/
def msgsPendingSync : List Message :=
  [{ role := "assistant", content := "Scheduling sync", actions := [pendingSync],
     isError := false }]

/-- An oracle history item carrying the two non-created terminal entries
for `sync`. -/
def histItemTerminalSync : HistoryItem :=
  { message_type := "assistant", content := "Scheduling sync",
    actions := [failedSync, needsAuthSync] }

/-- An oracle history whose only terminal entries for `sync` are the
failed and needs-auth ones. -/
def histTerminalSync : List HistoryItem := [histItemTerminalSync]

/-- A pending calendar action titled `meeting`, belonging to request A
(room A). -/
def pendingMeetingA : Action :=
  { type := "calendar_event_pending",
    details := some { summary := some "meeting", location := some "room A",
                      htmlLink := none, errorMsg := none } }

/-- A pending calendar action titled `meeting`, belonging to request B
(room B): its identifying field collides with `pendingMeetingA`'s. -/
def pendingMeetingB : Action :=
  { type := "calendar_event_pending",
    details := some { summary := some "meeting", location := some "room B",
                      htmlLink := none, errorMsg := none } }

/-- The created calendar event fulfilling request B. -/
def createdMeetingB : Action :=
  { type := "calendar_event_created",
    details := some { summary := some "meeting", location := some "room B",
                      htmlLink := some "https://calendar/evB", errorMsg := none } }

/-- The assistant turn carrying request A's pending action. -/
def msgPendingA : Message :=
  { role := "assistant", content := "Scheduling meeting A",
    actions := [pendingMeetingA], isError := false }

/-- The assistant turn carrying request B's pending action. -/
def msgPendingB : Message :=
  { role := "assistant", content := "Scheduling meeting B",
    actions := [pendingMeetingB], isError := false }

/-- An oracle history in which only request B's event has been created. -/
def histMeetingB : List HistoryItem :=
  [{ message_type := "assistant", content := "Scheduling meeting B",
     actions := [createdMeetingB] }]

/-- A pending calendar action titled `standup`, owned by the abandoned
session. -/
def pendingStandup : Action :=
  { type := "calendar_event_pending",
    details := some { summary := some "standup", location := none, htmlLink := none,
                      errorMsg := none } }

/-- The created counterpart of `pendingStandup` in the abandoned session's
oracle history. -/
def createdStandup : Action :=
  { type := "calendar_event_created",
    details := some { summary := some "standup", location := none,
                      htmlLink := some "https://calendar/standup", errorMsg := none } }

/-- The abandoned session's local log, as captured by the scheduled
poll's closure before the session switch. -/
def oldSessionMsgs : List Message :=
  [{ role := "assistant", content := "Scheduling standup", actions := [pendingStandup],
     isError := false }]

/-- The abandoned session's oracle history, now carrying the created
event. -/
def oldSessionHist : List HistoryItem :=
  [{ message_type := "assistant", content := "Scheduling standup",
     actions := [createdStandup] }]

/-- A pending calendar action titled `retro`. -/
def pendingRetro : Action :=
  { type := "calendar_event_pending",
    details := some { summary := some "retro", location := none, htmlLink := none,
                      errorMsg := none } }

/-- The created counterpart of `pendingRetro`. -/
def createdRetro : Action :=
  { type := "calendar_event_created",
    details := some { summary := some "retro", location := none,
                      htmlLink := some "https://calendar/retro", errorMsg := none } }

/-- The log snapshot captured by an in-flight poll, holding the pending
`retro` action. -/
def snapshotRetroMsgs : List Message :=
  [{ role := "assistant", content := "Scheduling retro", actions := [pendingRetro],
     isError := false }]

/-- The oracle history carrying the created `retro` event. -/
def histRetro : List HistoryItem :=
  [{ message_type := "assistant", content := "Scheduling retro",
     actions := [createdRetro] }]

/-- A user turn appended while the reconciliation poll is in flight. -/
def userFollowupTurn : Message :=
  { role := "user", content := "one more thing", actions := [], isError := false }

/-- When the history holds no created calendar action at all, the match
scan finds nothing, whatever the pending action is. -/
theorem findCreatedMatch_eq_none_of_no_created (p : Action) (hist : List HistoryItem)
    (h : ∀ item ∈ hist, ∀ a ∈ item.actions, ¬ a.type = "calendar_event_created") :
    findCreatedMatch p hist = none := by
  induction hist with
  | nil => rfl
  | cons item rest ih =>
    have hfind : item.actions.find? (createdMatches p) = none := by
      rw [List.find?_eq_none]
      intro a ha hmatch
      simp only [createdMatches, Bool.and_eq_true, beq_iff_eq] at hmatch
      exact h item (List.mem_cons_self item rest) a ha hmatch.1.1.1
    have ih2 := ih (fun i hi a ha => h i (List.mem_cons_of_mem _ hi) a ha)
    by_cases hl : 0 < item.actions.length <;> simp [findCreatedMatch, hl, hfind, ih2]

/-- When the match scan finds nothing for every pending action, the
replacement pass leaves a turn's action list unchanged and reports no
replacement. -/
theorem replaceFirstPendingAction_of_none (hist : List HistoryItem) (acts : List Action)
    (h : ∀ p, findCreatedMatch p hist = none) :
    replaceFirstPendingAction hist acts = (acts, false) := by
  induction acts with
  | nil => rfl
  | cons a rest ih =>
    by_cases hp : isPendingAction a
    · simp [replaceFirstPendingAction, hp, h a]
    · simp [replaceFirstPendingAction, hp, ih]

/-- When the match scan finds nothing for every pending action, each turn
is left unchanged by the reconciliation scan. -/
theorem processMessage_of_none (hist : List HistoryItem) (m : Message)
    (h : ∀ p, findCreatedMatch p hist = none) :
    processMessage hist m = (m, false) := by
  by_cases hc : m.role = "assistant" ∧ m.actions ≠ []
  · unfold processMessage
    rw [if_pos hc, replaceFirstPendingAction_of_none hist m.actions h]
  · simp [processMessage, hc]

/-- When the match scan finds nothing for every pending action, the whole
reconciliation scan returns the log unchanged with the flag down. -/
theorem reconcileMessages_of_none (hist : List HistoryItem) (msgs : List Message)
    (h : ∀ p, findCreatedMatch p hist = none) :
    reconcileMessages hist msgs = (msgs, false) := by
  induction msgs with
  | nil => rfl
  | cons m rest ih => simp [reconcileMessages, processMessage_of_none hist m h, ih]

/-- When some history item holds an action matching the pending one, the
match scan succeeds. -/
theorem findCreatedMatch_isSome (p : Action) (hist : List HistoryItem) (item : HistoryItem)
    (hitem : item ∈ hist) (a : Action) (ha : a ∈ item.actions)
    (hm : createdMatches p a = true) :
    (findCreatedMatch p hist).isSome = true := by
  induction hist with
  | nil => cases hitem
  | cons i rest ih =>
    rcases List.mem_cons.mp hitem with h | h
    · subst h
      have hlen : 0 < item.actions.length := List.length_pos.mpr (List.ne_nil_of_mem ha)
      have hsome : (item.actions.find? (createdMatches p)).isSome = true := by
        rw [List.find?_isSome]
        exact ⟨a, ha, hm⟩
      obtain ⟨c, hc⟩ := Option.isSome_iff_exists.mp hsome
      simp [findCreatedMatch, hlen, hc]
    · by_cases hl : 0 < i.actions.length
      · cases hfind : i.actions.find? (createdMatches p) with
        | some c => simp [findCreatedMatch, hl, hfind]
        | none => simpa [findCreatedMatch, hl, hfind] using ih h
      · simpa [findCreatedMatch, hl] using ih h

/-- When the first pending action of a turn's action list has a match in
the history, the replacement pass reports a replacement. -/
theorem replaceFirstPendingAction_snd_true (hist : List HistoryItem) (acts : List Action)
    (p : Action) (hfp : acts.find? isPendingAction = some p)
    (hsome : (findCreatedMatch p hist).isSome = true) :
    (replaceFirstPendingAction hist acts).2 = true := by
  induction acts with
  | nil => cases hfp
  | cons a rest ih =>
    by_cases hp : isPendingAction a
    · rw [List.find?_cons_of_pos _ hp] at hfp
      cases hfp
      obtain ⟨c, hc⟩ := Option.isSome_iff_exists.mp hsome
      simp [replaceFirstPendingAction, hp, hc]
    · rw [List.find?_cons_of_neg _ hp] at hfp
      simp [replaceFirstPendingAction, hp, ih hfp]

/-- An assistant turn whose first pending action has a match in the
history is reported as replaced by the per-turn processing. -/
theorem processMessage_snd_true (hist : List HistoryItem) (m : Message) (p : Action)
    (hrole : m.role = "assistant") (hfp : m.actions.find? isPendingAction = some p)
    (hsome : (findCreatedMatch p hist).isSome = true) :
    (processMessage hist m).2 = true := by
  have hne : m.actions ≠ [] := by
    intro h0
    rw [h0] at hfp
    cases hfp
  simp [processMessage, hrole, hne,
    replaceFirstPendingAction_snd_true hist m.actions p hfp hsome]

/-- If some turn of the log is reported replaced, the whole scan reports
an update. -/
theorem reconcileMessages_snd_true (hist : List HistoryItem) (msgs : List Message)
    (m : Message) (hm : m ∈ msgs) (h : (processMessage hist m).2 = true) :
    (reconcileMessages hist msgs).2 = true := by
  induction msgs with
  | nil => cases hm
  | cons x rest ih =>
    rcases List.mem_cons.mp hm with hx | hx
    · subst hx
      simp [reconcileMessages, h]
    · simp [reconcileMessages, ih hx]

/-- Claim C1, counterexample: the oracle history holds terminal actions of
types `calendar_event_failed` and `calendar_event_needs_auth` whose
identifying field (`details.summary`) equals the pending action's, yet the
poll resolves nothing: no write is made and another poll is scheduled
instead, refuting that a match of any of the three terminal types resolves
the pending action. -/
theorem terminal_non_created_match_not_resolved :
    failedSync.type = "calendar_event_failed"
    ∧ needsAuthSync.type = "calendar_event_needs_auth"
    ∧ actionSummary failedSync = actionSummary pendingSync
    ∧ actionSummary needsAuthSync = actionSummary pendingSync
    ∧ histItemTerminalSync ∈ histTerminalSync
    ∧ failedSync ∈ histItemTerminalSync.actions
    ∧ needsAuthSync ∈ histItemTerminalSync.actions
    ∧ checkCalendarEventStatus (some "tok") (some "s1") msgsPendingSync
        (.ok histTerminalSync)
      = { newMessages := none, reschedule := some 3000 } := by
  decide

/-- Claim C1, amended: the poll scans the fetched history for a terminal
action of type `calendar_event_created` only, matching on the identifying
field `details.summary`; a history containing no created action resolves
nothing (so `calendar_event_failed` and `calendar_event_needs_auth`
entries never resolve a pending action), while a created action whose
identifying field equals that of the first pending action of some
assistant turn does resolve. -/
theorem reconcile_resolves_only_created :
    (∀ (hist : List HistoryItem) (msgs : List Message),
        (∀ item ∈ hist, ∀ a ∈ item.actions, ¬ a.type = "calendar_event_created") →
        reconcileMessages hist msgs = (msgs, false))
    ∧ (∀ (hist : List HistoryItem) (msgs : List Message) (m : Message) (p : Action),
        m ∈ msgs → m.role = "assistant" →
        m.actions.find? isPendingAction = some p →
        (∃ item ∈ hist, ∃ a ∈ item.actions, createdMatches p a = true) →
        (reconcileMessages hist msgs).2 = true) := by
  constructor
  · intro hist msgs h
    exact reconcileMessages_of_none hist msgs
      (fun p => findCreatedMatch_eq_none_of_no_created p hist h)
  · rintro hist msgs m p hm hrole hfp ⟨item, hitem, a, ha, hmatch⟩
    exact reconcileMessages_snd_true hist msgs m hm
      (processMessage_snd_true hist m p hrole hfp
        (findCreatedMatch_isSome p hist item hitem a ha hmatch))

/-- Claim C1, witness: on the concrete history holding only failed and
needs-auth terminal entries, the amended theorem yields that the scan
changes nothing. -/
theorem reconcile_resolves_only_created_witness :
    reconcileMessages histTerminalSync msgsPendingSync = (msgsPendingSync, false) :=
  reconcile_resolves_only_created.1 histTerminalSync msgsPendingSync (by decide)

/-- Claim C2 (code bug): two distinct pending actions whose identifying
fields collide (both titled `meeting`) are cross-resolved.  The oracle
history holds only request B's created event, yet one reconciliation scan
replaces request A's pending action with that very event — a pending
action resolved by the terminal entry belonging to the other — because
matching is by `details.summary` content equality rather than a unique
correlation key. -/
theorem colliding_summaries_cross_resolve :
    ¬ pendingMeetingA = pendingMeetingB
    ∧ actionSummary pendingMeetingA = actionSummary pendingMeetingB
    ∧ ¬ createdMatches pendingMeetingA createdMeetingB = false
    ∧ reconcileMessages histMeetingB [msgPendingA, msgPendingB]
      = ([{ msgPendingA with actions := [createdMeetingB] },
          { msgPendingB with actions := [createdMeetingB] }], true) := by
  decide

/-- Claim C3, counterexample: on the very same state, a poll whose fetch
fails reschedules nothing (the catch block only logs), while a non-error
poll that merely finds no match reschedules another poll after 3000 ms —
refuting that an error outcome retries exactly as a no-match outcome
does. -/
theorem poll_error_stops_polling :
    checkCalendarEventStatus (some "tok") (some "s1") msgsPendingSync .error
      = { newMessages := none, reschedule := none }
    ∧ checkCalendarEventStatus (some "tok") (some "s1") msgsPendingSync (.ok [])
      = { newMessages := none, reschedule := some 3000 } := by
  decide

/-- Claim C3, amended: when a reconciliation poll fails with a
network/remote error, the engine neither writes to the log nor schedules
any further poll — polling for that pending action stops at the error,
rather than retrying on the next tick. -/
theorem poll_error_no_retry_no_write :
    ∀ (tok sid : Option String) (msgs : List Message),
      checkCalendarEventStatus tok sid msgs .error
        = { newMessages := none, reschedule := none } := by
  intro tok sid msgs
  cases tok with
  | none => rfl
  | some t =>
    cases sid with
    | none => rfl
    | some i =>
      by_cases h : i = "new" <;> simp [checkCalendarEventStatus, h]

/-- Claim C4 (code bug): nothing cancels a scheduled poll when the active
session is switched away from.  The poll closure still carries the old
session's id and log snapshot, its guard checks only the token and the
id, and when the old session's oracle history now holds the created
counterpart the poll still calls `setMessages` — mutating the local log
(here clobbering the new session's empty view with the old session's
reconciled turns) after the switch. -/
theorem stale_session_poll_still_mutates :
    (checkCalendarEventStatus (some "tok") (some "oldSession") oldSessionMsgs
        (.ok oldSessionHist)).newMessages.isSome = true
    ∧ ¬ viewAfterStalePoll []
        (checkCalendarEventStatus (some "tok") (some "oldSession") oldSessionMsgs
          (.ok oldSessionHist))
      = [] := by
  decide

/-- A non-error poll that finds no match writes nothing and schedules the
next poll after 3000 ms. -/
theorem checkStatus_no_match (t i : String) (msgs : List Message) (hist : List HistoryItem)
    (hne : ¬ i = "new") (hnm : (reconcileMessages hist msgs).2 = false) :
    checkCalendarEventStatus (some t) (some i) msgs (.ok hist)
      = { newMessages := none, reschedule := some 3000 } := by
  simp [checkCalendarEventStatus, hne, hnm]

/-- A tick whose poll finds no match leaves the loop state unchanged:
same log, another poll scheduled at the same delay. -/
theorem engineTick_no_match (t i : String) (msgs : List Message) (hist : List HistoryItem)
    (hne : ¬ i = "new") (hnm : (reconcileMessages hist msgs).2 = false) :
    engineTick (some t) (some i) hist { messages := msgs, scheduled := some 3000 }
      = { messages := msgs, scheduled := some 3000 } := by
  simp [engineTick, checkStatus_no_match t i msgs hist hne hnm]

/-- Claim C5: a no-match poll reschedules another poll after the same
fixed 3000 ms delay; that delay equals the delay of the initial poll the
dispatcher schedules on observing a calendar action; and the loop has no
attempt bound — as long as the oracle history never yields a match, after
every tick another poll is again scheduled, for every number of ticks. -/
theorem no_match_polls_indefinitely (t i : String) (msgs : List Message)
    (hist : List HistoryItem)
    (hne : ¬ i = "new") (hnm : (reconcileMessages hist msgs).2 = false) :
    (checkCalendarEventStatus (some t) (some i) msgs (.ok hist)).reschedule = some 3000
    ∧ (∀ (inp sid : String) (data : ChatResponseData) (prev : List Message),
        ¬ jsTrim inp = "" →
        data.actions.any (fun a =>
          a.type == "calendar_event_created" || a.type == "calendar_event_pending") = true →
        (handleSendMessage inp false prev sid (.success data)).scheduledCheck
          = some (data.session_id.getD sid, 3000))
    ∧ (∀ n : Nat,
        engineRun (some t) (some i) hist { messages := msgs, scheduled := some 3000 } n
          = { messages := msgs, scheduled := some 3000 }) := by
  refine ⟨by rw [checkStatus_no_match t i msgs hist hne hnm], ?_, ?_⟩
  · intro inp sid data prev hinp hany
    simp [handleSendMessage, hinp, hany]
  · intro n
    induction n with
    | zero => rfl
    | succ k ih =>
      rw [show engineRun (some t) (some i) hist
            { messages := msgs, scheduled := some 3000 } (k + 1)
          = engineRun (some t) (some i) hist
              (engineTick (some t) (some i) hist
                { messages := msgs, scheduled := some 3000 }) k from rfl,
        engineTick_no_match t i msgs hist hne hnm]
      exact ih

/-- Claim C5, witness: for a pending action whose counterpart the oracle
never reports (empty history), after five ticks the loop still has a poll
scheduled at 3000 ms and the log is unchanged. -/
theorem no_match_polls_indefinitely_witness :
    engineRun (some "tok") (some "s1") []
        { messages := msgsPendingSync, scheduled := some 3000 } 5
      = { messages := msgsPendingSync, scheduled := some 3000 } :=
  (no_match_polls_indefinitely "tok" "s1" msgsPendingSync [] (by decide) (by decide)).2.2 5

/-- Claim C6 (code bug): the reconciliation write is not atomic with
respect to a concurrent append.  In the interleaving where a user turn is
appended (functional update) while a poll that will find a match is in
flight, the poll's `setMessages(updatedMessages)` writes the reconciled
pre-append snapshot wholesale, and the appended user turn is absent from
the final log — the concurrent turn is lost. -/
theorem reconciliation_write_loses_concurrent_append :
    (reconcileMessages histRetro snapshotRetroMsgs).2 = true
    ∧ userFollowupTurn ∈ snapshotRetroMsgs ++ [userFollowupTurn]
    ∧ ¬ userFollowupTurn ∈ lostUpdateFinal snapshotRetroMsgs userFollowupTurn histRetro := by
  decide

/-- Claim C7: when the dispatch of a non-blank prompt fails, the result
log is the old log plus the optimistic user turn (kept in place, not an
error) plus exactly one synthetic assistant turn marked as an error;
exactly one request was issued, and nothing is scheduled that could retry
the submission. -/
theorem dispatch_failure_single_error_turn (input sessionId : String) (msgs : List Message)
    (h : ¬ jsTrim input = "") :
    (handleSendMessage input false msgs sessionId .failure).messages
        = msgs ++ [mkUserMessage input, errorReplyMessage]
    ∧ (mkUserMessage input).role = "user"
    ∧ (mkUserMessage input).content = input
    ∧ (mkUserMessage input).isError = false
    ∧ errorReplyMessage.isError = true
    ∧ List.countP (fun m => m.isError) [mkUserMessage input, errorReplyMessage] = 1
    ∧ (handleSendMessage input false msgs sessionId .failure).scheduledCheck = none
    ∧ (handleSendMessage input false msgs sessionId .failure).request
        = some { prompt := input,
                 message_history := msgs.map (fun m => { role := m.role, content := m.content }),
                 session_id := if sessionId = "new" then none else some sessionId } := by
  refine ⟨?_, rfl, rfl, rfl, rfl, ?_, ?_, ?_⟩ <;>
    simp [handleSendMessage, h, mkUserMessage, errorReplyMessage]

/-- Claim C7, witness: the failure path at the concrete prompt `hi` on an
empty log appends the user turn and the single error turn only. -/
theorem dispatch_failure_single_error_turn_witness :
    (handleSendMessage "hi" false [] "new" .failure).messages
        = [] ++ [mkUserMessage "hi", errorReplyMessage]
      ∧ (mkUserMessage "hi").role = "user"
      ∧ (mkUserMessage "hi").content = "hi"
      ∧ (mkUserMessage "hi").isError = false
      ∧ errorReplyMessage.isError = true
      ∧ List.countP (fun m => m.isError) [mkUserMessage "hi", errorReplyMessage] = 1
      ∧ (handleSendMessage "hi" false [] "new" .failure).scheduledCheck = none
      ∧ (handleSendMessage "hi" false [] "new" .failure).request
          = some { prompt := "hi",
                   message_history := ([] : List Message).map
                     (fun m => { role := m.role, content := m.content }),
                   session_id := if ("new" : String) = "new" then none else some "new" } :=
  dispatch_failure_single_error_turn "hi" "new" [] (by decide)

/-- Claim C8, counterexample: one reconciliation scan replaces more than
the first matching action.  With two assistant turns each holding a
pending action that matches the single created entry of the history, the
scan replaces both of them — two replacements performed in one pass from
one terminal entry, refuting `only the first` and `at most one
replacement per matching terminal entry`. -/
theorem replace_not_only_first :
    reconcileMessages histMeetingB [msgPendingB, msgPendingA]
      = ([{ msgPendingB with actions := [createdMeetingB] },
          { msgPendingA with actions := [createdMeetingB] }], true)
    ∧ ¬ { msgPendingB with actions := [createdMeetingB] } = msgPendingB
    ∧ ¬ { msgPendingA with actions := [createdMeetingB] } = msgPendingA := by
  decide

/-- Claim C8, amended: within one turn's action list the replacement pass
replaces at most the first pending action — when it reports no
replacement the list is unchanged, and when it reports one, the list
splits as `pre ++ pending :: post` with no pending action in `pre`, the
result is `pre ++ created :: post` for the created entry the history scan
matched, and the returned flag reports the replacement.  (Across turns,
however, the scan does not stop: every assistant turn whose first pending
action has a match is replaced in the same pass, so a pending action with
a unique key is replaced exactly once only because it occupies a single
turn.) -/
theorem replaceAction_first_pending_only :
    ∀ (hist : List HistoryItem) (acts : List Action),
      ((replaceFirstPendingAction hist acts).2 = false →
        (replaceFirstPendingAction hist acts).1 = acts)
      ∧ ((replaceFirstPendingAction hist acts).2 = true →
        ∃ pre p c post, acts = pre ++ p :: post
          ∧ (∀ q ∈ pre, isPendingAction q = false)
          ∧ isPendingAction p = true
          ∧ findCreatedMatch p hist = some c
          ∧ (replaceFirstPendingAction hist acts).1 = pre ++ c :: post) := by
  intro hist acts
  induction acts with
  | nil =>
    refine ⟨fun _ => rfl, fun h => ?_⟩
    simp [replaceFirstPendingAction] at h
  | cons a rest ih =>
    obtain ⟨ihf, iht⟩ := ih
    by_cases hp : isPendingAction a
    · cases hc : findCreatedMatch a hist with
      | some c =>
        refine ⟨fun h => ?_, fun _ => ?_⟩
        · simp [replaceFirstPendingAction, hp, hc] at h
        · refine ⟨[], a, c, rest, rfl, ?_, hp, hc, ?_⟩
          · intro q hq
            cases hq
          · simp [replaceFirstPendingAction, hp, hc]
      | none =>
        refine ⟨fun _ => ?_, fun h => ?_⟩
        · simp [replaceFirstPendingAction, hp, hc]
        · simp [replaceFirstPendingAction, hp, hc] at h
    · have hpf : isPendingAction a = false := by
        simpa using hp
      constructor
      · intro h
        have h2 : (replaceFirstPendingAction hist rest).2 = false := by
          simpa [replaceFirstPendingAction, hpf] using h
        simp [replaceFirstPendingAction, hpf, ihf h2]
      · intro h
        have h2 : (replaceFirstPendingAction hist rest).2 = true := by
          simpa [replaceFirstPendingAction, hpf] using h
        obtain ⟨pre, p, c, post, heq, hpre, hpp, hfc, hres⟩ := iht h2
        refine ⟨a :: pre, p, c, post, by rw [heq]; rfl, ?_, hpp, hfc, ?_⟩
        · intro q hq
          rcases List.mem_cons.mp hq with hqa | hqpre
          · subst hqa
            exact hpf
          · exact hpre q hqpre
        · simp [replaceFirstPendingAction, hpf, hres]

/-- Claim C8, witness: on the concrete one-pending action list and the
history holding its created counterpart, the amended theorem yields the
split with the empty non-pending head and the created entry spliced in. -/
theorem replaceAction_first_pending_only_witness :
    ∃ pre p c post, [pendingMeetingA] = pre ++ p :: post
      ∧ (∀ q ∈ pre, isPendingAction q = false)
      ∧ isPendingAction p = true
      ∧ findCreatedMatch p histMeetingB = some c
      ∧ (replaceFirstPendingAction histMeetingB [pendingMeetingA]).1 = pre ++ c :: post :=
  (replaceAction_first_pending_only histMeetingB [pendingMeetingA]).2 (by decide)

/-- Claim C9: submitting with a prompt that is empty (or whitespace-only,
so that it trims to empty) or while a previous dispatch is still in
flight is a no-op: the log is unchanged, no request is issued, nothing is
scheduled and the input box is not cleared. -/
theorem send_noop_on_blank_or_loading (input sessionId : String) (isLoading : Bool)
    (msgs : List Message) (outcome : SendOutcome)
    (h : jsTrim input = "" ∨ isLoading = true) :
    handleSendMessage input isLoading msgs sessionId outcome
      = { messages := msgs, request := none, scheduledCheck := none,
          inputCleared := false } := by
  unfold handleSendMessage
  rw [if_pos h]

/-- Claim C9, witness: a whitespace-only prompt trims to empty, and the
submit invocation leaves everything unchanged. -/
theorem send_noop_on_blank_or_loading_witness :
    handleSendMessage "   " false msgsPendingSync "s1" .failure
      = { messages := msgsPendingSync, request := none, scheduledCheck := none,
          inputCleared := false } :=
  send_noop_on_blank_or_loading "   " "s1" false msgsPendingSync .failure
    (Or.inl (by decide))

/-- Claim C10: for a dispatched turn (whatever the outcome), the issued
request carries the prompt in its own field and, as `message_history`,
exactly the role/content projection of the log as it was before the
optimistic append — in particular the history has the pre-append length,
so the turn being submitted is not part of it. -/
theorem request_history_is_presend_snapshot (input sessionId : String)
    (msgs : List Message) (outcome : SendOutcome) (h : ¬ jsTrim input = "") :
    ∃ req, (handleSendMessage input false msgs sessionId outcome).request = some req
      ∧ req.prompt = input
      ∧ req.message_history = msgs.map (fun m => { role := m.role, content := m.content })
      ∧ req.message_history.length = msgs.length := by
  refine ⟨{ prompt := input,
            message_history := msgs.map (fun m => { role := m.role, content := m.content }),
            session_id := if sessionId = "new" then none else some sessionId },
    ?_, rfl, rfl, by simp⟩
  cases outcome <;> simp [handleSendMessage, h]

/-- Claim C10, witness: submitting `again?` over a one-turn log issues a
request whose history is the projection of that single prior turn. -/
theorem request_history_is_presend_snapshot_witness :
    ∃ req, (handleSendMessage "again?" false [mkUserMessage "first"] "s7" .failure).request
        = some req
      ∧ req.prompt = "again?"
      ∧ req.message_history
          = [mkUserMessage "first"].map (fun m => { role := m.role, content := m.content })
      ∧ req.message_history.length = [mkUserMessage "first"].length :=
  request_history_is_presend_snapshot "again?" "s7" [mkUserMessage "first"] .failure
    (by decide)

end Chat
